import Mathlib

/-
Verification of the cellular_logger polling/aggregation engine.

The Go sources are embedded shallowly: each Lean definition mirrors one
function of the repository (file and line references are given in the doc
comments).  Machine integers (uint64, int64, uint32) are modelled as Nat or
Int with explicit reductions modulo 2 ^ 32 where the source truncates;
Go byte slices are lists of Nat below 256; Go errors are Option values
(none = nil error); wall-clock instants and durations are integers counting
nanoseconds.  Concurrency is modelled by explicit interleaving parameters:
the Go select statement picks uniformly among its ready cases, which is
rendered as a schedule parameter listing which ready case fires at each
iteration.
-/

namespace CellularLog

/-- Opaque dynamic values carried by the interface-typed fields of LogEntry
(MessageID, Data, Metadata values). -/
inductive GoValue where
  | vnil : GoValue
  | vstr : String → GoValue
  | vint : Int → GoValue
  | vbool : Bool → GoValue
  deriving DecidableEq, Repr

/-- LogEntry, from src/log.go lines 17-28.  Index is a uint64 counter,
RequestTime and ResponseTime are nanosecond instants (the Go zero time is 0),
Duration is nanoseconds (int64). -/
structure LogEntry where
  Index : Nat
  MessageType : String
  MessageID : GoValue
  Success : Bool
  Data : GoValue
  Error : String
  Metadata : List (String × GoValue)
  RequestTime : Int
  ResponseTime : Int
  Duration : Int
  deriving DecidableEq, Repr

/-- A Go error value: none models a nil error. -/
inductive GoErr where
  /-- errors.New with the text error interface mismatch. -/
  | interfaceMismatch : GoErr
  /-- An error returned by node.WriteMessageAll, carrying its message. -/
  | writeMessageErr : String → GoErr
  /-- ctx.Err() of the per-request context, returned once its channel fired. -/
  | requestCtxErr : GoErr
  /-- An error returned by the AT command interface, carrying its message. -/
  | atCommandErr : String → GoErr
  deriving DecidableEq, Repr

/-! ## Processor log buffer (src/unnamed/part_002 lines 31-161)

The Processor owns a shared buffer of LogEntry guarded by logMux; the
sequential model below replays the operations that run under that lock.
The batches handed to writer.Write are recorded in the field written;
errors returned by writer.Write are only printed by the source
(flushLogsUnsafe, lines 156-158), which the model records in printed. -/

/-- The buffer-related state of a Processor, plus the observable history of
batches handed to writer.Write and of write errors that were printed. -/
structure ProcBuffer where
  logBatchSize : Nat
  logBuffer : List LogEntry
  written : List (List LogEntry)
  printed : List String
  deriving DecidableEq, Repr

/-- NewProcessor (part_002 lines 50-64), restricted to the buffer state:
an empty buffer with the configured batch size. -/
def newProcBuffer (buffsize : Nat) : ProcBuffer :=
  { logBatchSize := buffsize, logBuffer := [], written := [], printed := [] }

/-- Processor.flushLogsUnsafe (part_002 lines 151-161): on an empty buffer
do nothing; otherwise hand the whole buffer to writer.Write, print the
write error if any, and reset the buffer unconditionally.  The writer
behaviour is the parameter w, mapping a batch to the error Write returns. -/
def flushLogsRaw (w : List LogEntry → Option String) (p : ProcBuffer) : ProcBuffer :=
  if p.logBuffer = [] then p
  else
    match w p.logBuffer with
    | some e =>
        { p with written := p.written ++ [p.logBuffer], logBuffer := [],
                 printed := p.printed ++ [e] }
    | none =>
        { p with written := p.written ++ [p.logBuffer], logBuffer := [] }

/-- Processor.flushLogs (part_002 lines 145-149): take the log mutex and
flush; the mutex is a no-op in this sequential replay. -/
def flushLogs (w : List LogEntry → Option String) (p : ProcBuffer) : ProcBuffer :=
  flushLogsRaw w p

/-- Processor.addLogEntry (part_002 lines 134-143): append the entry to the
buffer and flush immediately when the buffer has reached the batch size. -/
def addLogEntry (w : List LogEntry → Option String) (p : ProcBuffer) (e : LogEntry) :
    ProcBuffer :=
  if p.logBatchSize ≤ (p.logBuffer ++ [e]).length
  then flushLogsRaw w { p with logBuffer := p.logBuffer ++ [e] }
  else { p with logBuffer := p.logBuffer ++ [e] }

/-- One buffer-relevant event seen by the Processor loop (part_002 lines
95-108): either one LogEntry produced during a request tick and appended
via addLogEntry (lines 111-125), or a firing of the periodic 5-second log
flush ticker. -/
inductive LoopEvent where
  | entry : LogEntry → LoopEvent
  | flushTick : LoopEvent
  deriving DecidableEq, Repr

/-- Effect of one loop event on the buffer state. -/
def loopStep (w : List LogEntry → Option String) (p : ProcBuffer) : LoopEvent → ProcBuffer
  | .entry e => addLogEntry w p e
  | .flushTick => flushLogs w p

/-- Replay of the Processor loop over a finite event trace. -/
def runLoop (w : List LogEntry → Option String) (p : ProcBuffer) (evs : List LoopEvent) :
    ProcBuffer :=
  evs.foldl (loopStep w) p

/-- The LogEntry values produced by a trace, in order. -/
def eventEntries (evs : List LoopEvent) : List LogEntry :=
  evs.filterMap (fun ev => match ev with
    | .entry e => some e
    | .flushTick => none)

/-! ## Mavlink messages (src/pkg/mavlink/mavlink.go)

Message[T] holds a private index (uint64), a private history of LogEntry,
and the numeric id of T (uint32).  Message.Process races three channels in a
select: the lifetime context m.ctx, the per-request context built by
context.WithTimeout(m.ctx, r.timeout) — a child of m.ctx, hence done as soon
as the parent is cancelled or the timeout elapsed — and the incoming event
channel.  The Go select statement picks uniformly at random among its ready
cases; the model takes the sequence of fired cases as a schedule parameter,
each of which must be ready under the context state. -/

/-- The state of the two contexts observed by the select in Message.Process
(mavlink.go lines 105-119). -/
structure CtxState where
  lifeCancelled : Bool
  timeoutElapsed : Bool
  deriving DecidableEq, Repr

/-- The per-request context from context.WithTimeout(m.ctx, r.timeout) is
done when its parent is cancelled or its deadline has passed. -/
def requestCtxIsDone (s : CtxState) : Bool :=
  s.lifeCancelled || s.timeoutElapsed

/-- One firing of the three-way select in Message.Process (mavlink.go lines
108-144): the lifetime channel, the per-request context channel, the event
channel reporting closure (ok = false), an EventFrame whose message does or
does not type-assert to T, or a non-frame event. -/
inductive SelectCase where
  | lifetimeCh : SelectCase
  | timeoutCh : SelectCase
  | chanClosed : SelectCase
  | frame : Bool → GoValue → SelectCase
  | nonFrame : SelectCase
  deriving DecidableEq, Repr

/-- Which select cases can fire under a given context state: the context
channels only once done, while the event channel may deliver at any time
(its readiness depends on the external node, which the model leaves to the
environment). -/
def caseReady (s : CtxState) : SelectCase → Bool
  | .lifetimeCh => s.lifeCancelled
  | .timeoutCh => requestCtxIsDone s
  | .chanClosed => true
  | .frame _ _ => true
  | .nonFrame => true

/-- The mavlink Message[T] state: index counter, private history, message id
of T.  From mavlink.go lines 51-57. -/
structure MavMessage where
  index : Nat
  messages : List LogEntry
  id : Nat
  deriving DecidableEq, Repr

/-- Message.GetType (mavlink.go lines 154-156). -/
def MavMessage.GetType (m : MavMessage) : String :=
  "mavlink-" ++ toString m.id

/-- Message.add (mavlink.go lines 147-152): append to the private history. -/
def MavMessage.add (m : MavMessage) (log : LogEntry) : MavMessage :=
  { m with messages := m.messages ++ [log] }

/-- The LogEntry built at the top of Message.Process (mavlink.go lines
76-82): failure entry stamped with the current index and request time; the
remaining fields hold their Go zero values. -/
def mavBaseEntry (m : MavMessage) (t0 : Int) : LogEntry :=
  { Index := m.index, MessageType := m.GetType, MessageID := GoValue.vnil,
    Success := false, Data := GoValue.vnil, Error := "", Metadata := [],
    RequestTime := t0, ResponseTime := 0, Duration := 0 }

/-- The success outcome of Message.Process (mavlink.go lines 134-137 and the
identical AT lines 370-373): mark success, store the decoded payload, stamp
the response time and the elapsed duration. -/
def successEntry (log : LogEntry) (d : GoValue) (t1 : Int) : LogEntry :=
  { log with
    Success := true
    Data := d
    ResponseTime := t1
    Duration := t1 - log.RequestTime }

/-- The select loop of Message.Process (mavlink.go lines 108-144), run over
a schedule of fired cases.  Returns none when the schedule is exhausted
without resolving (the call is still blocked; nothing was appended), and
some (entry, returned error) when a case terminates the call, with the
entry appended to the history.  The case frame false skips the event and
continues; nonFrame likewise.  t1 is the instant time.Now() would return at
a successful response. -/
def mavSelectLoop (m : MavMessage) (log : LogEntry) (t1 : Int) :
    List SelectCase → Option (LogEntry × Option GoErr) × MavMessage
  | [] => (none, m)
  | c :: rest =>
    match c with
    | .lifetimeCh =>
        (some ({ log with Error := "context cancelled" }, none),
         m.add { log with Error := "context cancelled" })
    | .timeoutCh =>
        (some ({ log with Error := "request timeout" }, some GoErr.requestCtxErr),
         m.add { log with Error := "request timeout" })
    | .chanClosed =>
        (some ({ log with Error := "errors interface mismatch" },
               some GoErr.interfaceMismatch),
         m.add { log with Error := "errors interface mismatch" })
    | .frame true d =>
        (some (successEntry log d t1, none), m.add (successEntry log d t1))
    | .frame false _ => mavSelectLoop m log t1 rest
    | .nonFrame => mavSelectLoop m log t1 rest

/-- Message.Process for mavlink (mavlink.go lines 73-145).  isMavlink is
the requester.(*Mavlink) type assertion; writeAllErr the result of
node.WriteMessageAll; sched the select schedule; t0 and t1 the instants
returned by time.Now() at entry and at a successful response.  The deferred
m.index++ runs whenever the call returns, so the index is bumped on every
resolved outcome and untouched while the call is still blocked. -/
def mavProcess (m : MavMessage) (isMavlink : Bool) (writeAllErr : Option String)
    (sched : List SelectCase) (t0 t1 : Int) :
    Option (LogEntry × Option GoErr) × MavMessage :=
  if isMavlink = false then
    let log := { mavBaseEntry m t0 with Error := "errors interface mismatch" }
    let m1 := m.add log
    (some (log, some GoErr.interfaceMismatch), { m1 with index := m1.index + 1 })
  else
    match writeAllErr with
    | some msg =>
        let log := { mavBaseEntry m t0 with Error := msg }
        let m1 := m.add log
        (some (log, some (GoErr.writeMessageErr msg)),
         { m1 with index := m1.index + 1 })
    | none =>
        match mavSelectLoop m (mavBaseEntry m t0) t1 sched with
        | (none, m1) => (none, m1)
        | (some r, m1) => (some r, { m1 with index := m1.index + 1 })

/-! ## AT messages (src/log.go appended AT package, lines 320-396)

AT Message.Process is synchronous: the command either fails or returns data;
there is no select. -/

/-- The AT Message state: index counter, private history, command string.
From the AT package, lines 320-325. -/
structure ATMessage where
  index : Nat
  messages : List LogEntry
  cmd : String
  deriving DecidableEq, Repr

/-- AT Message.GetType (lines 387-389). -/
def ATMessage.GetType (m : ATMessage) : String :=
  "at-" ++ m.cmd

/-- AT Message.add (lines 380-385). -/
def ATMessage.add (m : ATMessage) (log : LogEntry) : ATMessage :=
  { m with messages := m.messages ++ [log] }

/-- The LogEntry built at the top of AT Message.Process (lines 346-352). -/
def atBaseEntry (m : ATMessage) (t0 : Int) : LogEntry :=
  { Index := m.index, MessageType := m.GetType, MessageID := GoValue.vnil,
    Success := false, Data := GoValue.vnil, Error := "", Metadata := [],
    RequestTime := t0, ResponseTime := 0, Duration := 0 }

/-- AT Message.Process (lines 343-378).  isAT is the requester.(*AT) type
assertion; cmdResult the outcome of r.node.Command(m.cmd); t0 and t1 the
instants returned by time.Now() at entry and after the command. -/
def atProcess (m : ATMessage) (isAT : Bool) (cmdResult : Except String GoValue)
    (t0 t1 : Int) : (LogEntry × Option GoErr) × ATMessage :=
  if isAT = false then
    let log := { atBaseEntry m t0 with Error := "errors interface mismatch" }
    let m1 := m.add log
    ((log, some GoErr.interfaceMismatch), { m1 with index := m1.index + 1 })
  else
    match cmdResult with
    | .error e =>
        let log := { atBaseEntry m t0 with
          Error := "error while sending AT commands: " ++ e }
        let m1 := m.add log
        ((log, some (GoErr.atCommandErr ("error while sending AT commands: " ++ e))),
         { m1 with index := m1.index + 1 })
    | .ok data =>
        let log := successEntry (atBaseEntry m t0) data t1
        let m1 := m.add log
        ((log, none), { m1 with index := m1.index + 1 })

/-! ## Processor.request (part_002 lines 111-125)

The tick iterates the message snapshot, invokes Request on each, appends the
per-message error to the aggregate only when non-nil, and appends every
returned LogEntry to the shared buffer.  The per-message outcomes are the
parameter results. -/

/-- Modelled from the spec: internal/multierr is not under src (only its
callers are).  Per the spec, the tick loop accumulates any errors into a
combined error value; Append therefore aggregates the components, returning
a non-nil combination whenever fed a non-nil error.  The combined error is
modelled as the list of component errors (none = nil error). -/
def multierrAppend : Option (List GoErr) → GoErr → Option (List GoErr)
  | none, e => some [e]
  | some es, e => some (es ++ [e])

/-- Processor.request (part_002 lines 111-125): fold over the per-message
outcomes, aggregating the non-nil errors and buffering every entry. -/
def processorRequest (w : List LogEntry → Option String)
    (results : List (LogEntry × Option GoErr)) (p : ProcBuffer) :
    Option (List GoErr) × ProcBuffer :=
  results.foldl
    (fun acc r =>
      (match r.2 with
       | none => acc.1
       | some e => multierrAppend acc.1 e,
       addLogEntry w acc.2 r.1))
    (none, p)

/-- Total content an observer can account for: everything already handed to
Write plus everything still buffered. -/
def ProcBuffer.handed (p : ProcBuffer) : List LogEntry :=
  p.written.flatten ++ p.logBuffer

/-! ## CSVWriter (src/log.go lines 65-124) -/

/-- One CSV cell as produced by CSVWriter.Write (log.go lines 100-111),
tagged with the stringification the source applies to it. -/
inductive CSVCell where
  /-- fmt.Sprintf with %d on a uint64. -/
  | uintDec : Nat → CSVCell
  /-- A string field written as is. -/
  | raw : String → CSVCell
  /-- fmt.Sprintf with %v on a dynamic value. -/
  | verb : GoValue → CSVCell
  /-- fmt.Sprintf with %t on a bool. -/
  | boolT : Bool → CSVCell
  /-- time.Time.Format with RFC3339Nano. -/
  | rfc3339 : Int → CSVCell
  /-- fmt.Sprintf with %.2f on Duration nanoseconds over 1e6. -/
  | ms2 : Int → CSVCell
  deriving DecidableEq, Repr

/-- The fixed header row (log.go lines 89-93): ten column names. -/
def csvHeaderRow : List CSVCell :=
  [.raw "index", .raw "message_type", .raw "message_id", .raw "timestamp",
   .raw "success", .raw "data", .raw "error", .raw "request_time",
   .raw "response_time", .raw "duration_ms"]

/-- One data record (log.go lines 101-111): nine stringified values —
index, message type, message id, success, data, error, request time,
response time, duration milliseconds; the source produces no value for the
timestamp column. -/
def csvRecord (e : LogEntry) : List CSVCell :=
  [.uintDec e.Index, .raw e.MessageType, .verb e.MessageID, .boolT e.Success,
   .verb e.Data, .raw e.Error, .rfc3339 e.RequestTime, .rfc3339 e.ResponseTime,
   .ms2 e.Duration]

/-- The CSVWriter state (log.go lines 65-70): the header flag and the rows
written so far, in order. -/
structure CSVWriterState where
  header : Bool
  rows : List (List CSVCell)
  deriving DecidableEq, Repr

/-- NewCSVWriter (log.go lines 72-82): fresh file, header not yet
written. -/
def newCSVWriter : CSVWriterState :=
  { header := false, rows := [] }

/-- CSVWriter.Write (log.go lines 84-119): write the header row on the
first call only, then one record per entry in batch order. -/
def csvWrite (w : CSVWriterState) (entries : List LogEntry) : CSVWriterState :=
  let w1 := if w.header then w else { header := true, rows := w.rows ++ [csvHeaderRow] }
  { w1 with rows := w1.rows ++ entries.map csvRecord }

/-! ## BinaryWriter (src/log.go lines 154-192) -/

/-- The four bytes written by binary.Write with binary.LittleEndian for
uint32(n): the little-endian base-256 digits, which reduce n modulo
2 ^ 32 exactly as the Go uint32 conversion does. -/
def u32le (n : Nat) : List Nat :=
  [n % 256, n / 256 % 256, n / 256 / 256 % 256, n / 256 / 256 / 256 % 256]

/-- One frame of BinaryWriter.Write (log.go lines 172-185): the
little-endian uint32 length prefix of the encoded entry, then the encoded
bytes themselves. -/
def frameBytes (data : List Nat) : List Nat :=
  u32le data.length ++ data

/-- BinaryWriter.Write over one batch (log.go lines 168-188), parameterized
by the JSON encoding enc of a single entry (encoding/json is the Go
standard library, outside this repository): the frames are concatenated in
entry order onto the stream. -/
def binaryWrite (enc : LogEntry → List Nat) (entries : List LogEntry) : List Nat :=
  (entries.map (fun e => frameBytes (enc e))).flatten

/-- Modelled from the spec: the binary record stream reader is not under
src.  Reading one little-endian uint32 length prefix; fewer than four
remaining bytes is a truncated record. -/
def readU32le : List Nat → Option (Nat × List Nat)
  | b0 :: b1 :: b2 :: b3 :: rest =>
      some (b0 + 256 * (b1 + 256 * (b2 + 256 * b3)), rest)
  | _ => none

/-- Modelled from the spec: the reader of the binary record stream —
repeated frames, a truncated final record treated as a recoverable end of
stream — with dec the JSON decoding of one entry and a fuel bound for
termination (each frame consumes at least four bytes). -/
def decodeFrames (dec : List Nat → Option LogEntry) :
    Nat → List Nat → Option (List LogEntry)
  | _, [] => some []
  | 0, _ :: _ => none
  | fuel + 1, s =>
      match readU32le s with
      | none => some []
      | some (n, rest) =>
          if rest.length < n then some []
          else
            match dec (rest.take n) with
            | none => none
            | some e =>
                match decodeFrames dec fuel (rest.drop n) with
                | none => none
                | some es => some (e :: es)

/-- Modelled from the spec: decode a whole stream; the stream length bounds
the number of frames. -/
def decodeStream (dec : List Nat → Option LogEntry) (s : List Nat) :
    Option (List LogEntry) :=
  decodeFrames dec s.length s

/-! ## Statistics queries (part_002 lines 191-211 and 213-235) -/

/-- The view of one registered message that the statistics helpers use:
GetType and GetAllEntries. -/
structure StatMessage where
  type : String
  entries : List LogEntry
  deriving DecidableEq, Repr

/-- Processor.GetSuccessRate (part_002 lines 191-211): scan the message
snapshot, accumulating the total entry count and the successful entry count
over messages of the given type, and return successful over total as a
percentage, zero when nothing matched.  The Go float64 arithmetic is
modelled exactly over the rationals. -/
def GetSuccessRate (messages : List StatMessage) (messageType : String) : ℚ :=
  let counts := messages.foldl
    (fun (acc : Nat × Nat) m =>
      if m.type == messageType then
        (acc.1 + m.entries.length,
         m.entries.foldl (fun k e => if e.Success then k + 1 else k) acc.2)
      else acc)
    (0, 0)
  if counts.1 = 0 then 0 else (counts.2 : ℚ) / (counts.1 : ℚ) * 100

/-- The entry condition of the average response time loop (part_002 line
223): entry.Success and entry.Duration strictly positive. -/
def qualifies (e : LogEntry) : Bool :=
  e.Success && decide (0 < e.Duration)

/-- Processor.GetAverageResponseTime (part_002 lines 213-235): sum the
durations of successful entries with strictly positive duration over
messages of the given type and divide by their count, zero when none
qualify.  time.Duration is an int64 of nanoseconds and Go integer division
truncates towards zero, hence Int.tdiv. -/
def GetAverageResponseTime (messages : List StatMessage) (messageType : String) : Int :=
  let acc := messages.foldl
    (fun (acc : Int × Nat) m =>
      if m.type == messageType then
        m.entries.foldl
          (fun (a : Int × Nat) e =>
            if qualifies e then (a.1 + e.Duration, a.2 + 1) else a)
          acc
      else acc)
    (0, 0)
  if acc.2 = 0 then 0 else Int.tdiv acc.1 (acc.2 : Int)

/-- All entries of the messages matching a type, in snapshot order — the
entry population the spec describes the statistics over. -/
def matchingEntries (messages : List StatMessage) (messageType : String) :
    List LogEntry :=
  ((messages.filter (fun m => m.type == messageType)).map
    (fun m => m.entries)).flatten

/-! ## Backend handles and Message.Request

Processor.Mavlink and Processor.AT (part_002 lines 31-33) are interface
fields; cmd/log/main.go lines 362-397 assigns them only when some message
needs that backend, so either may stay nil.  mavlink Message.Request
(mavlink.go lines 69-71) runs processor.Mavlink.Process(m) and AT
Message.Request (AT package lines 339-341) runs processor.AT.Process(m),
in both cases with no nil check: calling a method through a nil Go
interface value panics at runtime. -/

/-- Outcome of a Go call that may panic. -/
inductive GoCall (α : Type) where
  | ok : α → GoCall α
  | crashed : String → GoCall α
  deriving DecidableEq, Repr

/-- The two optional backend handles of the Processor (part_002 lines
31-33).  none models a nil interface; a present handle carries the
behaviour of its Process method on the message passed back to it. -/
structure ProcHandles where
  Mavlink : Option (MavMessage → Option (LogEntry × Option GoErr) × MavMessage)
  AT : Option (ATMessage → (LogEntry × Option GoErr) × ATMessage)

/-- mavlink Message.Request (mavlink.go lines 69-71): return
processor.Mavlink.Process(m), which double-dispatches to m.Process(r).
There is no nil check, so a nil handle is dereferenced and panics. -/
def mavRequest (p : ProcHandles) (m : MavMessage) :
    GoCall (Option (LogEntry × Option GoErr) × MavMessage) :=
  match p.Mavlink with
  | none => .crashed "runtime error: invalid memory address or nil pointer dereference"
  | some process => .ok (process m)

/-- AT Message.Request (AT package lines 339-341): return
processor.AT.Process(m); no nil check, so a nil handle panics. -/
def atRequest (p : ProcHandles) (m : ATMessage) :
    GoCall ((LogEntry × Option GoErr) × ATMessage) :=
  match p.AT with
  | none => .crashed "runtime error: invalid memory address or nil pointer dereference"
  | some process => .ok (process m)

/-! ## Processor.Close (part_002 lines 163-185) -/

/-- The shutdown-relevant state of a Processor: the sync.Once guard, the
context cancellation flag, the writer handle (none models a nil writer; a
present writer carries the error its Close returns) and whether the writer
Close has been invoked. -/
structure CloseState where
  onceDone : Bool
  ctxCancelled : Bool
  writer : Option (Option String)
  writerClosed : Bool
  deriving DecidableEq, Repr

/-- Processor.Close (part_002 lines 163-185).  The body runs under
sync.Once: cancel the context (cancel is always non-nil after
NewProcessor), wait for the loop (a no-op in this sequential replay) and
close the writer if non-nil.  The returned error is a local variable
assigned only inside the once body: a second call skips the body and
returns nil.  internal/multierr is not under src; per the spec it
aggregates errors, and appending one error to a nil error yields that
error, so err after the body is exactly the wrapped writer close error
when the writer close failed (wrapping texts from lines 175 and 181). -/
def processorClose (p : CloseState) : Option String × CloseState :=
  if p.onceDone then (none, p)
  else
    let p1 := { p with onceDone := true, ctxCancelled := true }
    match p1.writer with
    | none => (none, p1)
    | some closeErr =>
        let p2 := { p1 with writerClosed := true }
        match closeErr with
        | none => (none, p2)
        | some e =>
            (some ("error while closing processor: "
              ++ ("error closing writer: " ++ e)), p2)

/-! ## Message set membership (part_002 lines 50-78)

NewProcessor stores the messages in a gods hashset of Message interface
values and AddMessage inserts into it.  A Go interface value over a
pointer-receiver implementation compares (and hashes) equal only to the
same dynamic type at the same address, so set membership is object
identity, not the protocol identity key. -/

/-- The protocol identity key of a message: the numeric message id for
telemetry messages, the literal command string for modem messages. -/
inductive MsgKey where
  | mavId : Nat → MsgKey
  | atCmd : String → MsgKey
  deriving DecidableEq, Repr

/-- A Message interface value as held by the hashset: ptr is the address of
the underlying object (each NewMessage allocation yields a fresh address),
key its protocol identity key. -/
structure MsgRef where
  ptr : Nat
  key : MsgKey
  deriving DecidableEq, Repr

/-- Go interface equality as used by the hashset map: identical dynamic
type and pointer. -/
def msgEq (a b : MsgRef) : Bool :=
  a.ptr == b.ptr

/-- hashset.Add of one message, as performed by NewProcessor (part_002
lines 50-64) on each constructor argument and by Processor.AddMessage
(lines 66-71): a no-op when an interface-equal member exists. -/
def addMessage (s : List MsgRef) (m : MsgRef) : List MsgRef :=
  if s.any (fun x => msgEq x m) then s else s ++ [m]


/-! ## Sample values used by concrete instances -/

/-- A LogEntry with every field at its Go zero value. -/
def zeroEntry : LogEntry :=
  { Index := 0
    MessageType := ""
    MessageID := GoValue.vnil
    Success := false
    Data := GoValue.vnil
    Error := ""
    Metadata := []
    RequestTime := 0
    ResponseTime := 0
    Duration := 0 }

/-- A fresh processor handed a writer whose Close fails with disk full. -/
def closeStateFailing : CloseState :=
  { onceDone := false
    ctxCancelled := false
    writer := some (some "disk full")
    writerClosed := false }

/-- A fresh processor handed a writer whose Close succeeds. -/
def closeStateOk : CloseState :=
  { onceDone := false
    ctxCancelled := false
    writer := some none
    writerClosed := false }

/-- A successful sample entry for the CSV sink. -/
def csvSampleEntry : LogEntry :=
  { zeroEntry with MessageType := "at-I", Success := true, Data := GoValue.vstr "OK" }

/-- The first entry of the binary round-trip example of the spec: index 0,
success true. -/
def binSample0 : LogEntry :=
  { zeroEntry with Success := true, Data := GoValue.vstr "ok" }

/-- The second entry of the binary round-trip example of the spec: index 1,
success false, error x. -/
def binSample1 : LogEntry :=
  { zeroEntry with Index := 1, Error := "x" }

/-- A concrete single-entry JSON encoding for the round-trip witness: one
byte holding the entry index. -/
def binWitnessEnc (e : LogEntry) : List Nat :=
  [e.Index % 256]

/-- The matching decoder for the two witness entries. -/
def binWitnessDec (bs : List Nat) : Option LogEntry :=
  if bs = [0] then some binSample0
  else if bs = [1] then some binSample1
  else none

/-- The statistics example of the spec: one message with two successes of
100 and 200 milliseconds and one failure. -/
def statSample : StatMessage :=
  { type := "test"
    entries :=
      [{ zeroEntry with MessageType := "test", Success := true, Duration := 100000000 },
       { zeroEntry with MessageType := "test", Success := true, Duration := 200000000 },
       { zeroEntry with MessageType := "test", Error := "failed" }] }

end CellularLog

namespace CellularLog

theorem flushLogsRaw_handed (w : List LogEntry → Option String) (p : ProcBuffer) :
    (flushLogsRaw w p).handed = p.handed := by
  unfold flushLogsRaw ProcBuffer.handed
  by_cases h : p.logBuffer = []
  · simp [h]
  · cases hw : w p.logBuffer <;> simp [h, hw]

theorem flushLogsRaw_buffer (w : List LogEntry → Option String) (p : ProcBuffer) :
    (flushLogsRaw w p).logBuffer = [] ∨ p.logBuffer = [] := by
  unfold flushLogsRaw
  by_cases h : p.logBuffer = []
  · right; exact h
  · cases hw : w p.logBuffer <;> simp [h, hw]

theorem flushLogsRaw_size (w : List LogEntry → Option String) (p : ProcBuffer) :
    (flushLogsRaw w p).logBatchSize = p.logBatchSize := by
  unfold flushLogsRaw
  by_cases h : p.logBuffer = []
  · simp [h]
  · cases hw : w p.logBuffer <;> simp [h, hw]

theorem addLogEntry_handed (w : List LogEntry → Option String) (p : ProcBuffer)
    (e : LogEntry) : (addLogEntry w p e).handed = p.handed ++ [e] := by
  unfold addLogEntry
  by_cases h : p.logBatchSize ≤ (p.logBuffer ++ [e]).length
  · rw [if_pos h, flushLogsRaw_handed]
    unfold ProcBuffer.handed
    simp
  · rw [if_neg h]
    unfold ProcBuffer.handed
    simp

theorem runLoop_handed (w : List LogEntry → Option String) (evs : List LoopEvent)
    (p : ProcBuffer) : (runLoop w p evs).handed = p.handed ++ eventEntries evs := by
  induction evs generalizing p with
  | nil => simp [runLoop, eventEntries]
  | cons ev rest ih =>
      cases ev with
      | entry e =>
          show (runLoop w (addLogEntry w p e) rest).handed = _
          rw [ih, addLogEntry_handed]
          simp [eventEntries, List.filterMap]
      | flushTick =>
          show (runLoop w (flushLogs w p) rest).handed = _
          rw [ih]
          unfold flushLogs
          rw [flushLogsRaw_handed]
          simp [eventEntries, List.filterMap]

/-! ### Select loop structure lemmas -/

theorem mavSelectLoop_spec (sched : List SelectCase) (m : MavMessage)
    (log : LogEntry) (t1 : Int) :
    (mavSelectLoop m log t1 sched = (none, m))
    ∨ (∃ l e, mavSelectLoop m log t1 sched = (some (l, e), m.add l)) := by
  induction sched with
  | nil => left; rfl
  | cons c rest ih =>
      cases c with
      | lifetimeCh => right; exact ⟨_, _, rfl⟩
      | timeoutCh => right; exact ⟨_, _, rfl⟩
      | chanClosed => right; exact ⟨_, _, rfl⟩
      | frame b d =>
          cases b with
          | true => right; exact ⟨_, _, rfl⟩
          | false => exact ih
      | nonFrame => exact ih

theorem mavSelectLoop_cancelled_needs_lifetime (sched : List SelectCase)
    (m : MavMessage) (log : LogEntry) (t1 : Int) (l : LogEntry) (e : Option GoErr)
    (hlog : log.Error = "") (hres : (mavSelectLoop m log t1 sched).1 = some (l, e))
    (herr : l.Error = "context cancelled") : SelectCase.lifetimeCh ∈ sched := by
  induction sched with
  | nil => simp [mavSelectLoop] at hres
  | cons c rest ih =>
      cases c with
      | lifetimeCh => exact List.mem_cons_self _ _
      | timeoutCh =>
          simp [mavSelectLoop] at hres
          rw [← hres.1] at herr
          simp at herr
      | chanClosed =>
          simp [mavSelectLoop] at hres
          rw [← hres.1] at herr
          simp at herr
      | frame b d =>
          cases b with
          | true =>
              simp [mavSelectLoop, successEntry] at hres
              rw [← hres.1] at herr
              simp [hlog] at herr
          | false => exact List.mem_cons_of_mem _ (ih hres)
      | nonFrame => exact List.mem_cons_of_mem _ (ih hres)

/-- C2 counterexample: with the processor lifetime context cancelled and the
per-request timeout not yet elapsed, the per-request context (a child of the
lifetime context) is done as well, so the timeout select case is ready; if
the uniformly random select picks it, the recorded result is the timeout
result, not the cancelled one — refuting the claim that a request in flight
at cancellation never records a timeout. -/
theorem cancelled_request_can_record_timeout :
    (∀ c ∈ [SelectCase.timeoutCh],
        caseReady { lifeCancelled := true, timeoutElapsed := false } c = true)
    ∧ (mavProcess { index := 0, messages := [], id := 26 } true none
        [SelectCase.timeoutCh] 0 0).1
      = some ({ mavBaseEntry { index := 0, messages := [], id := 26 } 0 with
                Error := "request timeout" }, some GoErr.requestCtxErr)
    ∧ ({ mavBaseEntry { index := 0, messages := [], id := 26 } 0 with
         Error := "request timeout" } : LogEntry).Error ≠ "context cancelled" := by
  refine ⟨by decide, rfl, by decide⟩

/-- C2 amended: the select does not prioritise the lifetime channel; it
fires any ready case.  While the lifetime context is live no schedule of
ready cases can record a cancelled result; a resolution by the lifetime
case records the cancelled result with a nil error; a resolution by the
per-request context case records the timeout result with the non-nil
ctx.Err(). -/
theorem cancellation_vs_timeout_selection (s : CtxState) (m : MavMessage)
    (sched : List SelectCase) (t0 t1 : Int)
    (hready : ∀ c ∈ sched, caseReady s c = true) :
    (s.lifeCancelled = false →
      ∀ log e m1, mavProcess m true none sched t0 t1 = (some (log, e), m1) →
        log.Error ≠ "context cancelled")
    ∧ (∀ rest, (mavProcess m true none (SelectCase.lifetimeCh :: rest) t0 t1).1
        = some ({ mavBaseEntry m t0 with Error := "context cancelled" }, none))
    ∧ (∀ rest, (mavProcess m true none (SelectCase.timeoutCh :: rest) t0 t1).1
        = some ({ mavBaseEntry m t0 with Error := "request timeout" },
                some GoErr.requestCtxErr)) := by
  refine ⟨?_, fun rest => rfl, fun rest => rfl⟩
  intro hlife log e m1 hres herr
  have hmem : SelectCase.lifetimeCh ∈ sched := by
    have hbase : (mavBaseEntry m t0).Error = "" := rfl
    rcases mavSelectLoop_spec sched m (mavBaseEntry m t0) t1 with hnone | ⟨l, e2, hsome⟩
    · unfold mavProcess at hres
      simp [hnone] at hres
    · unfold mavProcess at hres
      simp [hsome] at hres
      refine mavSelectLoop_cancelled_needs_lifetime sched m (mavBaseEntry m t0) t1
        l e2 hbase (by rw [hsome]) ?_
      rw [hres.1.1]
      exact herr
  have := hready SelectCase.lifetimeCh hmem
  simp [caseReady, hlife] at this

/-- C2 witness: a concrete instantiation of the amended theorem — lifetime
context live, per-request timeout elapsed, select fires the timeout case:
the recorded result is the timeout result with a non-nil error. -/
theorem cancellation_vs_timeout_selection_witness :
    (mavProcess { index := 0, messages := [], id := 26 } true none
        [SelectCase.timeoutCh] 0 0).1
      = some ({ mavBaseEntry { index := 0, messages := [], id := 26 } 0 with
                Error := "request timeout" }, some GoErr.requestCtxErr) :=
  (cancellation_vs_timeout_selection { lifeCancelled := false, timeoutElapsed := true }
    { index := 0, messages := [], id := 26 } [SelectCase.timeoutCh] 0 0
    (by decide)).2.2 []

/-- C6: every resolved call of mavlink Message.Process appends exactly one
LogEntry to the private history (keeping the earlier entries intact) and
bumps the index exactly once; a call still blocked in the select — in
particular one that has only skipped non-matching frames — has appended
nothing and left the index untouched.  Every call of AT Message.Process
resolves and appends exactly one entry and bumps the index exactly once. -/
theorem process_appends_exactly_one :
    (∀ (m : MavMessage) (b : Bool) (werr : Option String) (sched : List SelectCase)
       (t0 t1 : Int),
       ((mavProcess m b werr sched t0 t1).2).messages.length
           = m.messages.length + (cond ((mavProcess m b werr sched t0 t1).1).isSome 1 0)
       ∧ ((mavProcess m b werr sched t0 t1).2).index
           = m.index + (cond ((mavProcess m b werr sched t0 t1).1).isSome 1 0)
       ∧ ((mavProcess m b werr sched t0 t1).2).messages.take m.messages.length
           = m.messages)
    ∧ (∀ (a : ATMessage) (b : Bool) (cr : Except String GoValue) (t0 t1 : Int),
       ((atProcess a b cr t0 t1).2).messages.length = a.messages.length + 1
       ∧ ((atProcess a b cr t0 t1).2).index = a.index + 1
       ∧ ((atProcess a b cr t0 t1).2).messages.take a.messages.length
           = a.messages) := by
  constructor
  · intro m b werr sched t0 t1
    unfold mavProcess
    cases b with
    | false => simp [MavMessage.add]
    | true =>
        cases werr with
        | some msg => simp [MavMessage.add]
        | none =>
            rcases mavSelectLoop_spec sched m (mavBaseEntry m t0) t1 with hnone | ⟨l, e, hsome⟩
            · simp [hnone]
            · simp [hsome, MavMessage.add]
  · intro a b cr t0 t1
    unfold atProcess
    cases b with
    | false => simp [ATMessage.add]
    | true =>
        cases cr with
        | error e => simp [ATMessage.add]
        | ok d => simp [ATMessage.add]

/-- C10: a telemetry request resolved by the cancelled lifetime context
records a failed entry with the text context cancelled but returns a nil
error, so it contributes nothing to the aggregate error of the tick loop,
whereas a resolution by the per-request timeout returns a non-nil error. -/
theorem cancelled_request_returns_nil_error :
    (∀ (m : MavMessage) (t0 t1 : Int) (rest : List SelectCase),
       (mavProcess m true none (SelectCase.lifetimeCh :: rest) t0 t1).1
         = some ({ mavBaseEntry m t0 with Error := "context cancelled" }, none)
       ∧ ({ mavBaseEntry m t0 with Error := "context cancelled" } : LogEntry).Success
         = false)
    ∧ (∀ (m : MavMessage) (t0 t1 : Int) (rest : List SelectCase),
       (mavProcess m true none (SelectCase.timeoutCh :: rest) t0 t1).1
         = some ({ mavBaseEntry m t0 with Error := "request timeout" },
                 some GoErr.requestCtxErr))
    ∧ (∀ (w : List LogEntry → Option String) (rs : List (LogEntry × Option GoErr))
       (l : LogEntry) (p : ProcBuffer),
       (processorRequest w (rs ++ [(l, none)]) p).1 = (processorRequest w rs p).1) := by
  refine ⟨fun m t0 t1 rest => ⟨rfl, rfl⟩, fun m t0 t1 rest => rfl, ?_⟩
  intro w rs l p
  unfold processorRequest
  rw [List.foldl_append]
  rfl

/-- C1: every entry appended during request ticks is handed to Write exactly
once across size-triggered, periodic and shutdown flushes, in order, and the
final shutdown flush leaves the buffer empty — for every writer behaviour w,
including writers that return errors on any batch. -/
theorem entries_handed_exactly_once
    (w : List LogEntry → Option String) (buffsize : Nat) (evs : List LoopEvent) :
    (flushLogs w (runLoop w (newProcBuffer buffsize) evs)).written.flatten
        = eventEntries evs
    ∧ (flushLogs w (runLoop w (newProcBuffer buffsize) evs)).logBuffer = [] := by
  have h1 : (flushLogs w (runLoop w (newProcBuffer buffsize) evs)).handed
      = eventEntries evs := by
    unfold flushLogs
    rw [flushLogsRaw_handed, runLoop_handed]
    simp [newProcBuffer, ProcBuffer.handed]
  have h2 : (flushLogs w (runLoop w (newProcBuffer buffsize) evs)).logBuffer = [] := by
    unfold flushLogs
    rcases flushLogsRaw_buffer w (runLoop w (newProcBuffer buffsize) evs) with h | h
    · exact h
    · unfold flushLogsRaw
      simp [h]
  refine ⟨?_, h2⟩
  have := h1
  unfold ProcBuffer.handed at this
  rw [h2] at this
  simpa using this

/-- C3 counterexample: with the relevant backend handle absent (nil), a
Message Request call does not return a configuration error — it panics on
the nil interface dereference, for the modem message and the telemetry
message alike. -/
theorem request_nil_backend_panics :
    atRequest { Mavlink := none, AT := none }
        { index := 0, messages := [], cmd := "I" }
      = GoCall.crashed "runtime error: invalid memory address or nil pointer dereference"
    ∧ mavRequest { Mavlink := none, AT := none }
        { index := 0, messages := [], id := 26 }
      = GoCall.crashed "runtime error: invalid memory address or nil pointer dereference" :=
  ⟨rfl, rfl⟩

/-- C3 amended: a Request on a message whose required backend handle is nil
does not block and does not return: it panics with the runtime nil pointer
dereference; with the handle present, Request delegates to the backend
Process method. -/
theorem request_backend_dispatch (p : ProcHandles) (ma : MavMessage) (mt : ATMessage) :
    (p.Mavlink = none →
      mavRequest p ma
        = .crashed "runtime error: invalid memory address or nil pointer dereference")
    ∧ (p.AT = none →
      atRequest p mt
        = .crashed "runtime error: invalid memory address or nil pointer dereference")
    ∧ (∀ f, p.Mavlink = some f → mavRequest p ma = .ok (f ma))
    ∧ (∀ g, p.AT = some g → atRequest p mt = .ok (g mt)) := by
  refine ⟨?_, ?_, ?_, ?_⟩
  · intro h; unfold mavRequest; rw [h]
  · intro h; unfold atRequest; rw [h]
  · intro f h; unfold mavRequest; rw [h]
  · intro g h; unfold atRequest; rw [h]

/-- C3 witness: concrete instantiation of the amended theorem on a
processor with both handles nil. -/
theorem request_backend_dispatch_witness :
    mavRequest { Mavlink := none, AT := none } { index := 0, messages := [], id := 26 }
      = .crashed "runtime error: invalid memory address or nil pointer dereference" :=
  (request_backend_dispatch { Mavlink := none, AT := none }
    { index := 0, messages := [], id := 26 }
    { index := 0, messages := [], cmd := "I" }).1 rfl

/-- C4 counterexample: when the writer Close fails, the first Close call
returns the wrapped error while the second call returns nil — not the same
result value. -/
theorem close_twice_results_differ :
    (processorClose closeStateFailing).1
      = some "error while closing processor: error closing writer: disk full"
    ∧ (processorClose (processorClose closeStateFailing).2).1 = none
    ∧ (processorClose closeStateFailing).1
      ≠ (processorClose (processorClose closeStateFailing).2).1 := by
  refine ⟨rfl, rfl, by decide⟩

/-- C4 amended: the underlying shutdown logic runs exactly once — the first
Close cancels the context and marks the once guard, and a second Close
leaves the state untouched; the second call always returns nil, which
equals the first result exactly when the first call succeeded. -/
theorem close_idempotent_shutdown_once (p : CloseState) (h : p.onceDone = false) :
    ((processorClose p).2).onceDone = true
    ∧ ((processorClose p).2).ctxCancelled = true
    ∧ (processorClose ((processorClose p).2)).2 = (processorClose p).2
    ∧ (processorClose ((processorClose p).2)).1 = none
    ∧ ((processorClose ((processorClose p).2)).1 = (processorClose p).1
        ↔ (processorClose p).1 = none) := by
  unfold processorClose
  rw [if_neg (by simp [h])]
  cases hw : p.writer with
  | none => simp
  | some closeErr =>
      cases closeErr with
      | none => simp
      | some e => simp

/-- C4 witness: concrete instantiation of the amended theorem on a fresh
processor whose writer closes without error. -/
theorem close_idempotent_shutdown_once_witness :
    ((processorClose closeStateOk).2).onceDone = true
    ∧ ((processorClose closeStateOk).2).ctxCancelled = true
    ∧ (processorClose ((processorClose closeStateOk).2)).2
      = (processorClose closeStateOk).2
    ∧ (processorClose ((processorClose closeStateOk).2)).1 = none
    ∧ ((processorClose ((processorClose closeStateOk).2)).1
        = (processorClose closeStateOk).1
      ↔ (processorClose closeStateOk).1 = none) :=
  close_idempotent_shutdown_once closeStateOk rfl

/-- C5 counterexample: two NewMessage allocations with the same identity
key (the modem command string) are distinct interface values, so adding
both leaves two independent members in the message set — refuting
de-duplication by identity key. -/
theorem same_key_not_deduplicated :
    ({ ptr := 1, key := MsgKey.atCmd "+CSQ" } : MsgRef).key
      = ({ ptr := 2, key := MsgKey.atCmd "+CSQ" } : MsgRef).key
    ∧ addMessage (addMessage [] { ptr := 1, key := MsgKey.atCmd "+CSQ" })
        { ptr := 2, key := MsgKey.atCmd "+CSQ" }
      = [{ ptr := 1, key := MsgKey.atCmd "+CSQ" },
         { ptr := 2, key := MsgKey.atCmd "+CSQ" }]
    ∧ (addMessage (addMessage [] { ptr := 1, key := MsgKey.atCmd "+CSQ" })
        { ptr := 2, key := MsgKey.atCmd "+CSQ" }).length = 2 := by
  refine ⟨rfl, by decide, by decide⟩

/-- C5 amended: de-duplication is by object identity, not by identity key —
adding the same Message object twice leaves the set unchanged, while two
distinct objects are both kept even when their identity keys coincide, each
with its own independent history. -/
theorem message_set_identity (s : List MsgRef) (m m1 m2 : MsgRef) :
    addMessage (addMessage s m) m = addMessage s m
    ∧ (m1.ptr ≠ m2.ptr → addMessage (addMessage [] m1) m2 = [m1, m2]) := by
  constructor
  · unfold addMessage
    by_cases h : (s.any fun x => msgEq x m) = true
    · simp [h]
    · have hm : ((s ++ [m]).any fun x => msgEq x m) = true := by
        simp [List.any_append, msgEq]
      simp [h, hm]
  · intro hne
    unfold addMessage
    simp [msgEq]
    intro habs
    exact absurd habs hne

/-- C5 witness: concrete instantiation of the amended theorem — adding two
distinct objects sharing the command +CSQ keeps both. -/
theorem message_set_identity_witness :
    addMessage (addMessage [] { ptr := 1, key := MsgKey.atCmd "+CSQ" })
        { ptr := 2, key := MsgKey.atCmd "+CSQ" }
      = [{ ptr := 1, key := MsgKey.atCmd "+CSQ" },
         { ptr := 2, key := MsgKey.atCmd "+CSQ" }] :=
  (message_set_identity [] { ptr := 1, key := MsgKey.atCmd "+CSQ" }
    { ptr := 1, key := MsgKey.atCmd "+CSQ" }
    { ptr := 2, key := MsgKey.atCmd "+CSQ" }).2 (by decide)

/-! ### CSVWriter theorems -/

theorem csvWrite_rows_after_header (w : CSVWriterState) (entries : List LogEntry)
    (hw : w.header = true) :
    (csvWrite w entries).rows = w.rows ++ entries.map csvRecord
    ∧ (csvWrite w entries).header = true := by
  unfold csvWrite
  simp [hw]

theorem foldl_csvWrite_rows (batches : List (List LogEntry)) (w : CSVWriterState)
    (hw : w.header = true) :
    (batches.foldl csvWrite w).rows = w.rows ++ batches.flatten.map csvRecord
    ∧ (batches.foldl csvWrite w).header = true := by
  induction batches generalizing w with
  | nil => exact ⟨by simp, hw⟩
  | cons b bs ih =>
      obtain ⟨h1, h2⟩ := csvWrite_rows_after_header w b hw
      obtain ⟨hr, hh⟩ := ih (csvWrite w b) h2
      refine ⟨?_, ?_⟩
      · rw [List.foldl_cons, hr, h1]
        simp
      · rw [List.foldl_cons]
        exact hh

/-- C7 counterexample: the header row names ten columns including
timestamp, but a data row carries only nine values — the record loop of
CSVWriter.Write never produces a timestamp value — so a data row does not
contain one value for each fixed column. -/
theorem csv_row_shorter_than_header :
    (csvWrite newCSVWriter [csvSampleEntry]).rows
      = [csvHeaderRow, csvRecord csvSampleEntry]
    ∧ csvHeaderRow.length = 10
    ∧ (csvRecord csvSampleEntry).length = 9
    ∧ (csvRecord csvSampleEntry).length ≠ csvHeaderRow.length := by
  refine ⟨by decide, by decide, by decide, by decide⟩

/-- C7 amended: across any sequence of Write calls the fixed header row is
emitted exactly once, before any data row, and each data row carries nine
stringified values in the order index, message type, message id, success,
data, error, request time, response time, duration milliseconds — one
fewer than the ten header columns, since no value is produced for the
timestamp column. -/
theorem csv_header_once_then_records (batches : List (List LogEntry))
    (h : batches ≠ []) :
    (batches.foldl csvWrite newCSVWriter).rows
      = csvHeaderRow :: batches.flatten.map csvRecord
    ∧ (∀ e : LogEntry, csvRecord e ≠ csvHeaderRow)
    ∧ (∀ e : LogEntry, (csvRecord e).length = 9)
    ∧ csvHeaderRow.length = 10 := by
  cases batches with
  | nil => exact absurd rfl h
  | cons b bs =>
      have h0 : (csvWrite newCSVWriter b).rows = csvHeaderRow :: b.map csvRecord := by
        unfold csvWrite newCSVWriter
        simp
      have h0h : (csvWrite newCSVWriter b).header = true := by
        unfold csvWrite newCSVWriter
        simp
      obtain ⟨hr, _⟩ := foldl_csvWrite_rows bs (csvWrite newCSVWriter b) h0h
      refine ⟨?_, ?_, fun e => rfl, rfl⟩
      · rw [List.foldl_cons, hr, h0]
        simp
      · intro e
        simp [csvRecord, csvHeaderRow]

/-- C7 witness: concrete instantiation of the amended theorem on one batch
of one entry. -/
theorem csv_header_once_then_records_witness :
    ([[csvSampleEntry]].foldl csvWrite newCSVWriter).rows
      = csvHeaderRow :: [[csvSampleEntry]].flatten.map csvRecord :=
  (csv_header_once_then_records [[csvSampleEntry]] (List.cons_ne_nil _ _)).1

/-! ### BinaryWriter theorems -/

theorem decodeFrames_cons (dec : List Nat → Option LogEntry) (fuel : Nat)
    (data rest : List Nat) (e : LogEntry) (hlen : data.length < 2 ^ 32)
    (hdec : dec data = some e) :
    decodeFrames dec (fuel + 1) (frameBytes data ++ rest)
      = match decodeFrames dec fuel rest with
        | none => none
        | some es => some (e :: es) := by
  have hshape : frameBytes data ++ rest
      = data.length % 256 :: data.length / 256 % 256 :: data.length / 256 / 256 % 256
        :: data.length / 256 / 256 / 256 % 256 :: (data ++ rest) := by
    simp [frameBytes, u32le]
  have hn : data.length % 256 + 256 * (data.length / 256 % 256
      + 256 * (data.length / 256 / 256 % 256
        + 256 * (data.length / 256 / 256 / 256 % 256))) = data.length := by
    omega
  rw [hshape]
  simp only [decodeFrames, readU32le, hn]
  rw [if_neg (by simp [List.length_append])]
  rw [List.take_left, List.drop_left, hdec]

theorem length_le_binaryWrite (enc : LogEntry → List Nat) (entries : List LogEntry) :
    entries.length ≤ (binaryWrite enc entries).length := by
  induction entries with
  | nil => simp [binaryWrite]
  | cons e es ih =>
      have h1 : binaryWrite enc (e :: es) = frameBytes (enc e) ++ binaryWrite enc es := by
        simp [binaryWrite]
      have h2 : (frameBytes (enc e)).length = 4 + (enc e).length := by
        simp [frameBytes, u32le]
        omega
      rw [h1, List.length_append, h2]
      simp only [List.length_cons]
      omega

theorem decodeFrames_binaryWrite (enc : LogEntry → List Nat)
    (dec : List Nat → Option LogEntry) (entries : List LogEntry) (fuel : Nat)
    (hfuel : entries.length ≤ fuel)
    (hdec : ∀ e ∈ entries, dec (enc e) = some e)
    (hlen : ∀ e ∈ entries, (enc e).length < 2 ^ 32) :
    decodeFrames dec fuel (binaryWrite enc entries) = some entries := by
  induction entries generalizing fuel with
  | nil =>
      have hb : binaryWrite enc [] = [] := rfl
      rw [hb]
      cases fuel <;> rfl
  | cons e es ih =>
      cases fuel with
      | zero => simp at hfuel
      | succ f =>
          have hw : binaryWrite enc (e :: es) = frameBytes (enc e) ++ binaryWrite enc es := by
            simp [binaryWrite]
          rw [hw, decodeFrames_cons dec f (enc e) (binaryWrite enc es) e
            (hlen e (by simp)) (hdec e (by simp))]
          rw [ih f (by simpa using hfuel)
            (fun x hx => hdec x (List.mem_cons_of_mem _ hx))
            (fun x hx => hlen x (List.mem_cons_of_mem _ hx))]

/-- C8: BinaryWriter.Write frames each entry of a batch, in order, as a
four-byte little-endian unsigned length prefix followed by exactly that
many bytes of the JSON encoding of the entry, and decoding the
concatenated length-prefixed stream reconstructs the original entries —
for every per-entry JSON codec that round-trips on the batch, provided
each encoding fits the uint32 length prefix. -/
theorem binary_roundtrip (enc : LogEntry → List Nat)
    (dec : List Nat → Option LogEntry) (entries : List LogEntry)
    (hdec : ∀ e ∈ entries, dec (enc e) = some e)
    (hlen : ∀ e ∈ entries, (enc e).length < 2 ^ 32) :
    decodeStream dec (binaryWrite enc entries) = some entries := by
  unfold decodeStream
  exact decodeFrames_binaryWrite enc dec entries _
    (length_le_binaryWrite enc entries) hdec hlen

/-- C8 witness: the spec example — one successful entry of index 0 and one
failed entry of index 1 with error x — encoded by a concrete codec,
round-trips through the length-prefixed stream. -/
theorem binary_roundtrip_witness :
    (∀ e ∈ [binSample0, binSample1], binWitnessDec (binWitnessEnc e) = some e)
    ∧ decodeStream binWitnessDec (binaryWrite binWitnessEnc [binSample0, binSample1])
      = some [binSample0, binSample1] :=
  ⟨by decide,
   binary_roundtrip binWitnessEnc binWitnessDec [binSample0, binSample1]
     (by decide) (by decide)⟩

/-! ### Statistics theorems -/

theorem successCount_foldl (entries : List LogEntry) (k : Nat) :
    entries.foldl (fun k e => if e.Success then k + 1 else k) k
      = k + (entries.filter (fun e => e.Success)).length := by
  induction entries generalizing k with
  | nil => simp
  | cons e es ih =>
      rw [List.foldl_cons, List.filter_cons]
      cases he : e.Success
      · rw [if_neg (by simp [he]), if_neg (by simp [he])]
        exact ih k
      · rw [if_pos (by simp [he]), if_pos (by simp [he])]
        rw [ih]
        simp only [List.length_cons]
        omega

theorem successRate_foldl (messages : List StatMessage) (mt : String) (t k : Nat) :
    messages.foldl
      (fun (acc : Nat × Nat) m =>
        if m.type == mt then
          (acc.1 + m.entries.length,
           m.entries.foldl (fun k e => if e.Success then k + 1 else k) acc.2)
        else acc) (t, k)
      = (t + (matchingEntries messages mt).length,
         k + ((matchingEntries messages mt).filter (fun e => e.Success)).length) := by
  induction messages generalizing t k with
  | nil => simp [matchingEntries]
  | cons m ms ih =>
      rw [List.foldl_cons]
      cases hm : m.type == mt
      · rw [if_neg (by simp [hm])]
        rw [ih]
        simp [matchingEntries, List.filter_cons, hm]
      · rw [if_pos (by simp [hm])]
        rw [ih, successCount_foldl]
        simp only [matchingEntries, List.filter_cons, hm, if_pos, List.map_cons,
          List.flatten_cons, List.length_append, List.filter_append, Prod.mk.injEq]
        exact ⟨by omega, by omega⟩

theorem avgTime_inner_foldl (entries : List LogEntry) (d : Int) (c : Nat) :
    entries.foldl
      (fun (a : Int × Nat) e =>
        if qualifies e then (a.1 + e.Duration, a.2 + 1) else a)
      (d, c)
      = (d + ((entries.filter (fun e => qualifies e)).map (fun e => e.Duration)).sum,
         c + (entries.filter (fun e => qualifies e)).length) := by
  induction entries generalizing d c with
  | nil => simp
  | cons e es ih =>
      rw [List.foldl_cons, List.filter_cons]
      cases hq : qualifies e
      · rw [if_neg (by simp [hq]), if_neg (by simp [hq])]
        exact ih d c
      · rw [if_pos (by simp [hq]), if_pos (by simp [hq])]
        rw [ih]
        simp only [List.map_cons, List.sum_cons, List.length_cons, Prod.mk.injEq]
        exact ⟨by ring, by omega⟩

theorem avgTime_foldl (messages : List StatMessage) (mt : String) (d : Int) (c : Nat) :
    messages.foldl
      (fun (acc : Int × Nat) m =>
        if m.type == mt then
          m.entries.foldl
            (fun (a : Int × Nat) e =>
              if qualifies e then (a.1 + e.Duration, a.2 + 1) else a)
            acc
        else acc) (d, c)
      = (d + (((matchingEntries messages mt).filter
            (fun e => qualifies e)).map (fun e => e.Duration)).sum,
         c + ((matchingEntries messages mt).filter (fun e => qualifies e)).length) := by
  induction messages generalizing d c with
  | nil => simp [matchingEntries]
  | cons m ms ih =>
      rw [List.foldl_cons]
      cases hm : m.type == mt
      · rw [if_neg (by simp [hm])]
        rw [ih]
        simp [matchingEntries, List.filter_cons, hm]
      · rw [if_pos (by simp [hm])]
        rw [avgTime_inner_foldl, ih]
        simp only [matchingEntries, List.filter_cons, hm, if_pos, List.map_cons,
          List.flatten_cons, List.filter_append, List.map_append, List.sum_append,
          List.length_append, Prod.mk.injEq]
        exact ⟨by ring, by omega⟩

/-- C9: GetSuccessRate returns successful entries over total entries of the
messages matching the type, as a percentage, and zero when no matching
entry exists; GetAverageResponseTime returns the mean duration (with the
Go truncating nanosecond division) over successful entries with strictly
positive duration, and zero when none qualify.  On the spec example —
two successes of 100 and 200 milliseconds plus one failure — the rate is
200 / 3 percent (displayed 66.67) and the average 150 milliseconds. -/
theorem statistics_formulas (messages : List StatMessage) (mt : String) :
    GetSuccessRate messages mt
      = (if (matchingEntries messages mt).length = 0 then 0
         else (((matchingEntries messages mt).filter (fun e => e.Success)).length : ℚ)
           / ((matchingEntries messages mt).length : ℚ) * 100)
    ∧ GetAverageResponseTime messages mt
      = (if ((matchingEntries messages mt).filter (fun e => qualifies e)).length = 0
         then 0
         else Int.tdiv
           ((((matchingEntries messages mt).filter (fun e => qualifies e)).map
              (fun e => e.Duration)).sum)
           (((matchingEntries messages mt).filter (fun e => qualifies e)).length : Int))
    ∧ GetSuccessRate [statSample] "test" = 200 / 3
    ∧ GetAverageResponseTime [statSample] "test" = 150000000 := by
  refine ⟨?_, ?_, ?_, ?_⟩
  · simp only [GetSuccessRate]
    rw [successRate_foldl]
    simp
  · simp only [GetAverageResponseTime]
    rw [avgTime_foldl]
    simp
  · show ((2 : Nat) : ℚ) / ((3 : Nat) : ℚ) * 100 = 200 / 3
    norm_num
  · decide

end CellularLog
